import Mathlib

/-!
Verification of the `actors` repository's global registry against its
specification.

The definitions below are a shallow embedding of the Python sources:

* `src/python/actors/registry.py` — `GlobalRegistry` state and handlers
  (`_on_register`, `_on_unregister`, `_on_lookup`, `_on_heartbeat`,
  `_check_heartbeats`, `_unregister_manager`, `is_manager_online`) and the
  standalone server loop `run_registry`;
* `src/python/actors/registry_messages.py` — the wire message dataclasses and
  their `to_dict` serializers;
* `src/python/actors/registry_client.py` — `RegistryClient.lookup`.

Python `dict`s are modelled as association lists (`List (String × β)`) with
explicit lookup / assignment / deletion operations; Python `set`s of strings
as duplicate-free `List String`; the monotonic clock as a `ℚ` parameter
threaded through the handlers.
-/

/-- Lookup in an association list — `d.get(k)` / `k in d` on a Python dict. -/
def alookup {β : Type} (k : String) : List (String × β) → Option β
  | [] => none
  | (k', v) :: rest => if k' = k then some v else alookup k rest

/-- Assignment `d[k] = v` on a Python dict: replace the value at the first
binding of `k` in place if present, otherwise append the new binding. -/
def aset {β : Type} (k : String) (v : β) : List (String × β) → List (String × β)
  | [] => [(k, v)]
  | (k', v') :: rest =>
      if k' = k then (k, v) :: rest else (k', v') :: aset k v rest

/-- Deletion `d.pop(k, None)` on a Python dict: drop the bindings of `k`. -/
def aerase {β : Type} (k : String) : List (String × β) → List (String × β)
  | [] => []
  | (k', v') :: rest =>
      if k' = k then aerase k rest else (k', v') :: aerase k rest

/-! ## Wire messages (`registry_messages.py`) -/

/-- JSON-ish values appearing in serialized message records. -/
inductive JVal where
  | s (v : String)
  | b (v : Bool)
  | i (v : Int)
  | null
deriving DecidableEq

/-- Encode an optional string the way Python's `json` renders `Optional[str]`. -/
def jopt : Option String → JVal
  | some v => .s v
  | none => .null

/-- Encode an optional int the way Python's `json` renders `Optional[int]`. -/
def jopti : Option Int → JVal
  | some v => .i v
  | none => .null

structure RegisterActor where
  manager_id : String
  actor_name : String
  actor_endpoint : String
deriving DecidableEq

def RegisterActor.to_dict (m : RegisterActor) : List (String × JVal) :=
  [("message_type", .s "RegisterActor"),
   ("manager_id", .s m.manager_id),
   ("actor_name", .s m.actor_name),
   ("actor_endpoint", .s m.actor_endpoint)]

structure UnregisterActor where
  actor_name : String
deriving DecidableEq

def UnregisterActor.to_dict (m : UnregisterActor) : List (String × JVal) :=
  [("message_type", .s "UnregisterActor"),
   ("actor_name", .s m.actor_name)]

structure RegistrationOk where
  actor_name : String
deriving DecidableEq

def RegistrationOk.to_dict (m : RegistrationOk) : List (String × JVal) :=
  [("message_type", .s "RegistrationOk"),
   ("actor_name", .s m.actor_name)]

structure RegistrationFailed where
  actor_name : String
  reason : String
deriving DecidableEq

def RegistrationFailed.to_dict (m : RegistrationFailed) : List (String × JVal) :=
  [("message_type", .s "RegistrationFailed"),
   ("actor_name", .s m.actor_name),
   ("reason", .s m.reason)]

structure LookupActor where
  actor_name : String
deriving DecidableEq

def LookupActor.to_dict (m : LookupActor) : List (String × JVal) :=
  [("message_type", .s "LookupActor"),
   ("actor_name", .s m.actor_name)]

structure LookupResult where
  actor_name : String
  endpoint : Option String
  online : Bool
deriving DecidableEq

def LookupResult.to_dict (m : LookupResult) : List (String × JVal) :=
  [("message_type", .s "LookupResult"),
   ("actor_name", .s m.actor_name),
   ("endpoint", jopt m.endpoint),
   ("online", .b m.online)]

structure Heartbeat where
  manager_id : String
  timestamp_ms : Int
deriving DecidableEq

def Heartbeat.to_dict (m : Heartbeat) : List (String × JVal) :=
  [("message_type", .s "Heartbeat"),
   ("manager_id", .s m.manager_id),
   ("timestamp_ms", .i m.timestamp_ms)]

structure HeartbeatAck where
deriving DecidableEq

def HeartbeatAck.to_dict (_ : HeartbeatAck) : List (String × JVal) :=
  [("message_type", .s "HeartbeatAck")]

structure StartManager where
  manager_id : String
deriving DecidableEq

def StartManager.to_dict (m : StartManager) : List (String × JVal) :=
  [("manager_id", .s m.manager_id), ("action", .s "start")]

structure StopManager where
  manager_id : String
deriving DecidableEq

def StopManager.to_dict (m : StopManager) : List (String × JVal) :=
  [("manager_id", .s m.manager_id), ("action", .s "stop")]

structure RestartManager where
  manager_id : String
deriving DecidableEq

def RestartManager.to_dict (m : RestartManager) : List (String × JVal) :=
  [("manager_id", .s m.manager_id), ("action", .s "restart")]

structure ManagerStatus where
  manager_id : String
  running : Bool
  pid : Option Int
  error : Option String
deriving DecidableEq

def ManagerStatus.to_dict (m : ManagerStatus) : List (String × JVal) :=
  [("manager_id", .s m.manager_id),
   ("running", .b m.running),
   ("pid", jopti m.pid),
   ("error", jopt m.error)]

/-! ## Registry state (`registry.py`, `GlobalRegistry`) -/

/-- `ActorEntry`: registry entry for an actor. -/
structure ActorEntry where
  endpoint : String
  manager_id : String
deriving DecidableEq

/-- The three maps of `GlobalRegistry`: `_registry` (actor name → entry),
`_heartbeats` (manager id → last heartbeat time, monotonic), and
`_manager_actors` (manager id → set of actor names). -/
structure RegistryState where
  registry : List (String × ActorEntry)
  heartbeats : List (String × ℚ)
  manager_actors : List (String × List String)
deriving DecidableEq

/-- The state of a freshly constructed `GlobalRegistry`: all maps empty. -/
def initialState : RegistryState := ⟨[], [], []⟩

/-- `HEARTBEAT_TIMEOUT_S = 6.0` — three missed 2-second heartbeats. -/
def HEARTBEAT_TIMEOUT_S : ℚ := 6

/-- The actor-name set recorded for a manager (`_manager_actors.get(m, set())`). -/
def actorsOf (st : RegistryState) (manager_id : String) : List String :=
  (alookup manager_id st.manager_actors).getD []

/-- `GlobalRegistry.is_manager_online`: a manager is online when it has a
recorded heartbeat and strictly less than `HEARTBEAT_TIMEOUT_S` seconds have
elapsed since it. -/
def is_manager_online (st : RegistryState) (now : ℚ) (manager_id : String) : Bool :=
  match alookup manager_id st.heartbeats with
  | none => false
  | some t => decide (now - t < HEARTBEAT_TIMEOUT_S)

/-- Replies produced by the registration handler. -/
inductive RegReply where
  | ok (actor_name : String)
  | failed (actor_name reason : String)
deriving DecidableEq

def RegReply.to_dict : RegReply → List (String × JVal)
  | .ok n => RegistrationOk.to_dict ⟨n⟩
  | .failed n r => RegistrationFailed.to_dict ⟨n, r⟩

/-- `GlobalRegistry._on_register` (the standalone server's `RegisterActor`
branch performs the identical update): reject a name already present;
otherwise insert into the name map, add the name to the manager's set, and
record the registration as a heartbeat at the current time. -/
def on_register (msg : RegisterActor) (now : ℚ) (st : RegistryState) :
    RegistryState × RegReply :=
  if (alookup msg.actor_name st.registry).isSome then
    (st, .failed msg.actor_name "Name already registered")
  else
    ({ registry := aset msg.actor_name ⟨msg.actor_endpoint, msg.manager_id⟩ st.registry,
       heartbeats := aset msg.manager_id now st.heartbeats,
       manager_actors :=
         aset msg.manager_id
           (if msg.actor_name ∈ actorsOf st msg.manager_id then
              actorsOf st msg.manager_id
            else
              actorsOf st msg.manager_id ++ [msg.actor_name])
           st.manager_actors },
     .ok msg.actor_name)

/-- The state change shared by `GlobalRegistry._on_unregister` and the
standalone server's `UnregisterActor` branch: pop the name from the name map;
when an entry was popped, discard the name from its owning manager's set. The
heartbeat map is untouched. -/
def on_unregister (actor_name : String) (st : RegistryState) : RegistryState :=
  match alookup actor_name st.registry with
  | none => st
  | some entry =>
      { st with
        registry := aerase actor_name st.registry,
        manager_actors :=
          match alookup entry.manager_id st.manager_actors with
          | none => st.manager_actors
          | some s =>
              aset entry.manager_id (s.filter (fun x => x ≠ actor_name))
                st.manager_actors }

/-- The standalone server's `UnregisterActor` branch: apply the state change
and reply `RegistrationOk(actor_name)` unconditionally. -/
def server_unregister (actor_name : String) (st : RegistryState) :
    RegistryState × RegistrationOk :=
  (on_unregister actor_name st, ⟨actor_name⟩)

/-- `GlobalRegistry._on_lookup` (and the server's `LookupActor` branch):
absent names yield `LookupResult(name, None, False)`; present names yield the
entry's endpoint and the owning manager's online bit. -/
def on_lookup (actor_name : String) (now : ℚ) (st : RegistryState) : LookupResult :=
  match alookup actor_name st.registry with
  | none => ⟨actor_name, none, false⟩
  | some entry => ⟨actor_name, some entry.endpoint, is_manager_online st now entry.manager_id⟩

/-- `GlobalRegistry._on_heartbeat` (and the server's `Heartbeat` branch):
stamp the manager with the current monotonic time; the message's
`timestamp_ms` field is not consulted. -/
def on_heartbeat (msg : Heartbeat) (now : ℚ) (st : RegistryState) :
    RegistryState × HeartbeatAck :=
  ({ st with heartbeats := aset msg.manager_id now st.heartbeats }, ⟨⟩)

/-- `GlobalRegistry._unregister_manager`: pop the manager's actor set, delete
each of those names from the name map, and drop the manager's heartbeat. -/
def unregister_manager (manager_id : String) (st : RegistryState) : RegistryState :=
  { registry := (actorsOf st manager_id).foldl (fun r n => aerase n r) st.registry,
    heartbeats := aerase manager_id st.heartbeats,
    manager_actors := aerase manager_id st.manager_actors }

/-- The stale-manager list collected by `_check_heartbeats`: managers whose
last heartbeat is strictly more than `HEARTBEAT_TIMEOUT_S` seconds old. -/
def staleManagers (now : ℚ) (st : RegistryState) : List String :=
  (st.heartbeats.filter (fun p => decide (now - p.2 > HEARTBEAT_TIMEOUT_S))).map Prod.fst

/-- `GlobalRegistry._check_heartbeats`: one sweep pass — collect the stale
managers, then unregister each in turn. -/
def check_heartbeats (now : ℚ) (st : RegistryState) : RegistryState :=
  (staleManagers now st).foldl (fun s m => unregister_manager m s) st

/-- The registry sweep body as iterated by `check_heartbeats`. -/
def sweepFold (l : List String) (st : RegistryState) : RegistryState :=
  l.foldl (fun s m => unregister_manager m s) st

/-! ## Standalone server dispatch (`run_registry`) -/

/-- A decoded request record as read by `run_registry`: the `message_type`
discriminator together with the fields the four handled branches extract. -/
structure WireRequest where
  message_type : String
  manager_id : String
  actor_name : String
  actor_endpoint : String
  timestamp_ms : Int
deriving DecidableEq

/-- The error record `run_registry` replies with for an unknown message type. -/
def error_reply (t : String) : List (String × JVal) :=
  [("error", .s ("Unknown message type: " ++ t))]

/-- The dispatch of `run_registry`'s main loop: branch on `message_type`,
apply the corresponding state change, and always produce a reply record. -/
def server_handle (req : WireRequest) (now : ℚ) (st : RegistryState) :
    RegistryState × List (String × JVal) :=
  if req.message_type = "RegisterActor" then
    let p := on_register ⟨req.manager_id, req.actor_name, req.actor_endpoint⟩ now st
    (p.1, p.2.to_dict)
  else if req.message_type = "UnregisterActor" then
    let p := server_unregister req.actor_name st
    (p.1, p.2.to_dict)
  else if req.message_type = "LookupActor" then
    (st, (on_lookup req.actor_name now st).to_dict)
  else if req.message_type = "Heartbeat" then
    let p := on_heartbeat ⟨req.manager_id, req.timestamp_ms⟩ now st
    (p.1, p.2.to_dict)
  else
    (st, error_reply req.message_type)

/-! ## Registry client (`registry_client.py`) -/

/-- `RCVTIMEO` set on the client's REQ socket in `_get_socket`: 5000 ms. -/
def RCVTIMEO_MS : Nat := 5000

/-- A reply record as the client reads it: `reply.get('message_type')`,
`reply.get('endpoint')` and `reply.get('online', False)` may each be absent. -/
structure ReplyDict where
  message_type : Option String
  endpoint : Option String
  online : Option Bool
deriving DecidableEq

/-- The outcomes of `RegistryClient.lookup`: a returned endpoint, or one of
the raised exceptions. -/
inductive LookupOutcome where
  | found (endpoint : String)
  | notFound
  | offline
  | timeout
  | unexpectedReply
deriving DecidableEq

/-- `RegistryClient.lookup`: `none` models `zmq.Again` (no reply within the
socket's receive deadline) → `TimeoutError`; a `LookupResult` reply with a
null endpoint → `ActorNotFoundError`; non-null endpoint but `online` false →
`ActorOfflineError`; otherwise the endpoint is returned. Any other
`message_type` → `RegistryError`. -/
def client_lookup (reply : Option ReplyDict) : LookupOutcome :=
  match reply with
  | none => .timeout
  | some r =>
      if r.message_type = some "LookupResult" then
        match r.endpoint with
        | none => .notFound
        | some ep => if r.online.getD false then .found ep else .offline
      else
        .unexpectedReply

/-! ## Reachable registry states -/

/-- The registry operations that mutate the three maps. -/
inductive RegistryOp where
  | register (manager_id actor_name actor_endpoint : String) (now : ℚ)
  | unregister (actor_name : String)
  | heartbeat (manager_id : String) (now : ℚ)
  | sweep (now : ℚ)

/-- Apply one registry operation to a state. -/
def applyOp (st : RegistryState) (op : RegistryOp) : RegistryState :=
  match op with
  | .register m n e now => (on_register ⟨m, n, e⟩ now st).1
  | .unregister n => on_unregister n st
  | .heartbeat m now => (on_heartbeat ⟨m, 0⟩ now st).1
  | .sweep now => check_heartbeats now st

/-- The state reached from the empty registry by a sequence of operations. -/
def runOps (ops : List RegistryOp) : RegistryState :=
  ops.foldl applyOp initialState

/-- Agreement of the name map and the manager→actors reverse index: a name
maps to an entry owned by `m` exactly when the name is in `m`'s set. -/
def Agrees (st : RegistryState) : Prop :=
  ∀ n m, (∃ e, alookup n st.registry = some ⟨e, m⟩) ↔ n ∈ actorsOf st m

/-- The heartbeat map has no duplicate keys (true of a Python dict). -/
def WFheartbeats (st : RegistryState) : Prop :=
  (st.heartbeats.map Prod.fst).Nodup

/-! ## Association-list lemmas -/

theorem alookup_aset_self {β : Type} (k : String) (v : β) (l : List (String × β)) :
    alookup k (aset k v l) = some v := by
  induction l with
  | nil => simp [aset, alookup]
  | cons p rest ih =>
      obtain ⟨k', v'⟩ := p
      by_cases h : k' = k
      · simp [aset, h, alookup]
      · simp [aset, h, alookup, ih]

theorem alookup_aset_ne {β : Type} {k k' : String} (v : β) (l : List (String × β))
    (h : k' ≠ k) : alookup k' (aset k v l) = alookup k' l := by
  have hne : k ≠ k' := h.symm
  induction l with
  | nil => simp [aset, alookup, hne]
  | cons p rest ih =>
      obtain ⟨k'', v''⟩ := p
      by_cases hk : k'' = k
      · subst hk
        simp [aset, alookup, hne]
      · simp [aset, hk, alookup, ih]

theorem alookup_aerase_self {β : Type} (k : String) (l : List (String × β)) :
    alookup k (aerase k l) = none := by
  induction l with
  | nil => simp [aerase, alookup]
  | cons p rest ih =>
      obtain ⟨k', v'⟩ := p
      by_cases h : k' = k
      · simp [aerase, h, ih]
      · simp [aerase, h, alookup, ih]

theorem alookup_aerase_ne {β : Type} {k k' : String} (l : List (String × β))
    (h : k' ≠ k) : alookup k' (aerase k l) = alookup k' l := by
  have hne : k ≠ k' := h.symm
  induction l with
  | nil => simp [aerase]
  | cons p rest ih =>
      obtain ⟨k'', v''⟩ := p
      by_cases hk : k'' = k
      · subst hk
        simp [aerase, alookup, hne, ih]
      · simp [aerase, hk, alookup, ih]

theorem alookup_mem {β : Type} {k : String} {v : β} {l : List (String × β)}
    (h : alookup k l = some v) : (k, v) ∈ l := by
  induction l with
  | nil => simp [alookup] at h
  | cons p rest ih =>
      obtain ⟨k', v'⟩ := p
      by_cases hk : k' = k
      · subst hk
        simp [alookup] at h
        simp [h]
      · simp [alookup, hk] at h
        exact List.mem_cons_of_mem _ (ih h)

theorem mem_alookup_of_nodup {β : Type} {k : String} {v : β} {l : List (String × β)}
    (hnd : (l.map Prod.fst).Nodup) (h : (k, v) ∈ l) : alookup k l = some v := by
  induction l with
  | nil => simp at h
  | cons p rest ih =>
      obtain ⟨k', v'⟩ := p
      simp only [List.map_cons, List.nodup_cons] at hnd
      rcases List.mem_cons.mp h with h1 | h1
      · obtain ⟨hk, hv⟩ := Prod.mk.injEq .. ▸ h1
        simp [alookup, hk.symm, hv]
      · have hne : k' ≠ k := by
          intro he
          exact hnd.1 (he ▸ (List.mem_map.mpr ⟨(k, v), h1, rfl⟩))
        simp [alookup, hne, ih hnd.2 h1]

theorem mem_keys_aset {β : Type} (k k'' : String) (v : β) (l : List (String × β)) :
    k'' ∈ (aset k v l).map Prod.fst ↔ k'' = k ∨ k'' ∈ l.map Prod.fst := by
  induction l with
  | nil => simp [aset]
  | cons p rest ih =>
      obtain ⟨k', v'⟩ := p
      by_cases h : k' = k
      · subst h
        simp [aset]
      · simp only [aset, if_neg h, List.map_cons, List.mem_cons, ih]
        tauto

theorem nodup_keys_aset {β : Type} (k : String) (v : β) {l : List (String × β)}
    (hnd : (l.map Prod.fst).Nodup) : ((aset k v l).map Prod.fst).Nodup := by
  induction l with
  | nil => simp [aset]
  | cons p rest ih =>
      obtain ⟨k', v'⟩ := p
      simp only [List.map_cons, List.nodup_cons] at hnd
      by_cases h : k' = k
      · subst h
        simpa [aset] using hnd
      · simp only [aset, if_neg h, List.map_cons, List.nodup_cons]
        refine ⟨fun hmem => ?_, ih hnd.2⟩
        rcases (mem_keys_aset k k' v rest).mp hmem with h1 | h1
        · exact h h1
        · exact hnd.1 h1

theorem keys_aerase_sublist {β : Type} (k : String) (l : List (String × β)) :
    ((aerase k l).map Prod.fst).Sublist (l.map Prod.fst) := by
  induction l with
  | nil => simp [aerase]
  | cons p rest ih =>
      obtain ⟨k', v'⟩ := p
      by_cases h : k' = k
      · simp only [aerase, if_pos h, List.map_cons]
        exact ih.cons k'
      · simp only [aerase, if_neg h, List.map_cons]
        exact ih.cons₂ k'

theorem nodup_keys_aerase {β : Type} (k : String) {l : List (String × β)}
    (hnd : (l.map Prod.fst).Nodup) : ((aerase k l).map Prod.fst).Nodup :=
  (keys_aerase_sublist k l).nodup hnd

theorem alookup_foldl_aerase {β : Type} (names : List String) :
    ∀ (reg : List (String × β)) (n : String),
      alookup n (names.foldl (fun r k => aerase k r) reg) =
        if n ∈ names then none else alookup n reg := by
  induction names with
  | nil => intro reg n; simp
  | cons k names ih =>
      intro reg n
      by_cases hn : n = k
      · subst hn
        simp only [List.foldl_cons, ih, alookup_aerase_self]
        simp
      · simp only [List.foldl_cons, ih, alookup_aerase_ne reg hn, List.mem_cons]
        by_cases hmem : n ∈ names <;> simp [hmem, hn]

/-! ## Stale-manager and sweep lemmas -/

theorem mem_staleManagers_iff (now : ℚ) (st : RegistryState) (m : String) :
    m ∈ staleManagers now st ↔
      ∃ t, (m, t) ∈ st.heartbeats ∧ now - t > HEARTBEAT_TIMEOUT_S := by
  simp only [staleManagers, List.mem_map, List.mem_filter, decide_eq_true_eq]
  constructor
  · rintro ⟨⟨m', t⟩, ⟨hmem, hgt⟩, heq⟩
    cases heq
    exact ⟨t, hmem, hgt⟩
  · rintro ⟨t, hmem, hgt⟩
    exact ⟨(m, t), ⟨hmem, hgt⟩, rfl⟩

theorem mem_staleManagers_of_alookup {now : ℚ} {st : RegistryState} {m : String}
    {t : ℚ} (h : alookup m st.heartbeats = some t)
    (hgt : now - t > HEARTBEAT_TIMEOUT_S) : m ∈ staleManagers now st :=
  (mem_staleManagers_iff now st m).mpr ⟨t, alookup_mem h, hgt⟩

theorem not_mem_staleManagers {now : ℚ} {st : RegistryState} {m : String} {t : ℚ}
    (hW : WFheartbeats st) (h : alookup m st.heartbeats = some t)
    (hle : ¬ now - t > HEARTBEAT_TIMEOUT_S) : m ∉ staleManagers now st := by
  intro hmem
  obtain ⟨t', hmem', hgt⟩ := (mem_staleManagers_iff now st m).mp hmem
  have := mem_alookup_of_nodup hW hmem'
  rw [h] at this
  cases this
  exact hle hgt

theorem nodup_staleManagers {now : ℚ} {st : RegistryState} (hW : WFheartbeats st) :
    (staleManagers now st).Nodup := by
  have hsub : (staleManagers now st).Sublist (st.heartbeats.map Prod.fst) :=
    (st.heartbeats.filter_sublist).map Prod.fst
  exact hsub.nodup hW

theorem check_heartbeats_eq_sweepFold (now : ℚ) (st : RegistryState) :
    check_heartbeats now st = sweepFold (staleManagers now st) st := rfl

theorem heartbeats_unregister_manager (m : String) (st : RegistryState) :
    (unregister_manager m st).heartbeats = aerase m st.heartbeats := rfl

theorem manager_actors_unregister_manager (m : String) (st : RegistryState) :
    (unregister_manager m st).manager_actors = aerase m st.manager_actors := rfl

theorem actorsOf_unregister_manager_ne {m m' : String} (st : RegistryState)
    (h : m' ≠ m) : actorsOf (unregister_manager m st) m' = actorsOf st m' := by
  simp [actorsOf, manager_actors_unregister_manager, alookup_aerase_ne _ h]

theorem registry_unregister_manager_lookup (m : String) (st : RegistryState)
    (n : String) :
    alookup n (unregister_manager m st).registry =
      if n ∈ actorsOf st m then none else alookup n st.registry := by
  simp [unregister_manager, alookup_foldl_aerase]

theorem hb_sweepFold (l : List String) :
    ∀ (st : RegistryState) (k : String),
      alookup k (sweepFold l st).heartbeats =
        if k ∈ l then none else alookup k st.heartbeats := by
  induction l with
  | nil => intro st k; simp [sweepFold]
  | cons m l ih =>
      intro st k
      by_cases hk : k = m
      · subst hk
        simp only [sweepFold, List.foldl_cons, List.mem_cons, true_or, if_pos]
        by_cases hmem : k ∈ l
        · simpa [sweepFold, hmem] using ih (unregister_manager k st) k
        · have := ih (unregister_manager k st) k
          simpa [sweepFold, hmem, heartbeats_unregister_manager,
            alookup_aerase_self] using this
      · have := ih (unregister_manager m st) k
        simp only [sweepFold, List.foldl_cons] at this ⊢
        rw [this, heartbeats_unregister_manager, alookup_aerase_ne _ hk]
        simp [List.mem_cons, hk]

theorem ma_sweepFold (l : List String) :
    ∀ (st : RegistryState) (k : String),
      alookup k (sweepFold l st).manager_actors =
        if k ∈ l then none else alookup k st.manager_actors := by
  induction l with
  | nil => intro st k; simp [sweepFold]
  | cons m l ih =>
      intro st k
      by_cases hk : k = m
      · subst hk
        simp only [sweepFold, List.foldl_cons, List.mem_cons, true_or, if_pos]
        by_cases hmem : k ∈ l
        · simpa [sweepFold, hmem] using ih (unregister_manager k st) k
        · have := ih (unregister_manager k st) k
          simpa [sweepFold, hmem, manager_actors_unregister_manager,
            alookup_aerase_self] using this
      · have := ih (unregister_manager m st) k
        simp only [sweepFold, List.foldl_cons] at this ⊢
        rw [this, manager_actors_unregister_manager, alookup_aerase_ne _ hk]
        simp [List.mem_cons, hk]

theorem reg_none_sweepFold (l : List String) :
    ∀ (st : RegistryState) (n : String), alookup n st.registry = none →
      alookup n (sweepFold l st).registry = none := by
  induction l with
  | nil => intro st n h; simpa [sweepFold] using h
  | cons m l ih =>
      intro st n h
      simp only [sweepFold, List.foldl_cons]
      refine ih (unregister_manager m st) n ?_
      rw [registry_unregister_manager_lookup]
      by_cases hmem : n ∈ actorsOf st m <;> simp [hmem, h]

theorem reg_deleted_sweepFold (l : List String) :
    ∀ (st : RegistryState) (m : String), m ∈ l → l.Nodup →
      ∀ n ∈ actorsOf st m, alookup n (sweepFold l st).registry = none := by
  induction l with
  | nil => intro st m hm; simp at hm
  | cons m₁ l ih =>
      intro st m hm hnd n hn
      simp only [List.nodup_cons] at hnd
      rcases List.mem_cons.mp hm with he | hmem
      · subst he
        simp only [sweepFold, List.foldl_cons]
        refine reg_none_sweepFold l (unregister_manager m st) n ?_
        rw [registry_unregister_manager_lookup, if_pos hn]
      · have hne : m ≠ m₁ := fun he => hnd.1 (he ▸ hmem)
        simp only [sweepFold, List.foldl_cons]
        refine ih (unregister_manager m₁ st) m hmem hnd.2 n ?_
        rwa [actorsOf_unregister_manager_ne st hne]

theorem reg_fresh_sweepFold (l : List String) :
    ∀ (st : RegistryState) (n : String), l.Nodup →
      (∀ m' ∈ l, n ∉ actorsOf st m') →
      alookup n (sweepFold l st).registry = alookup n st.registry := by
  induction l with
  | nil => intro st n _ _; simp [sweepFold]
  | cons m₁ l ih =>
      intro st n hnd hdisj
      simp only [List.nodup_cons] at hnd
      simp only [sweepFold, List.foldl_cons]
      have h1 : alookup n (sweepFold l (unregister_manager m₁ st)).registry =
          alookup n (unregister_manager m₁ st).registry := by
        refine ih (unregister_manager m₁ st) n hnd.2 ?_
        intro m' hm'
        have hne : m' ≠ m₁ := fun he => hnd.1 (he ▸ hm')
        rw [actorsOf_unregister_manager_ne st hne]
        exact hdisj m' (List.mem_cons_of_mem _ hm')
      rw [show (sweepFold l (unregister_manager m₁ st)).registry =
            (List.foldl (fun s m => unregister_manager m s) (unregister_manager m₁ st) l).registry
          from rfl] at h1
      rw [h1, registry_unregister_manager_lookup,
        if_neg (hdisj m₁ (List.mem_cons_self m₁ l))]

/-! ## Invariant preservation -/

theorem agrees_unique {st : RegistryState} (hA : Agrees st) {n m1 m2 : String}
    (h1 : n ∈ actorsOf st m1) (h2 : n ∈ actorsOf st m2) : m1 = m2 := by
  obtain ⟨e1, he1⟩ := (hA n m1).mpr h1
  obtain ⟨e2, he2⟩ := (hA n m2).mpr h2
  rw [he1] at he2
  simp only [Option.some.injEq, ActorEntry.mk.injEq] at he2
  exact he2.2

theorem actorsOf_mem_alookup {st : RegistryState} {m n : String}
    (h : n ∈ actorsOf st m) :
    ∃ s, alookup m st.manager_actors = some s ∧ n ∈ s := by
  unfold actorsOf at h
  cases hma : alookup m st.manager_actors with
  | none => rw [hma] at h; simp at h
  | some s => rw [hma] at h; exact ⟨s, rfl, h⟩

theorem agrees_on_register {st : RegistryState} (msg : RegisterActor) (now : ℚ)
    (hA : Agrees st) : Agrees (on_register msg now st).1 := by
  rcases hreg : alookup msg.actor_name st.registry with _ | entry
  case some => simp only [on_register, hreg, Option.isSome_some, if_pos]; exact hA
  case none =>
  have hbranch : (on_register msg now st).1 =
      { registry := aset msg.actor_name ⟨msg.actor_endpoint, msg.manager_id⟩ st.registry,
        heartbeats := aset msg.manager_id now st.heartbeats,
        manager_actors :=
          aset msg.manager_id
            (if msg.actor_name ∈ actorsOf st msg.manager_id then
               actorsOf st msg.manager_id
             else
               actorsOf st msg.manager_id ++ [msg.actor_name])
            st.manager_actors } := by
    simp [on_register, hreg]
  intro n m
  rw [hbranch]
  simp only [actorsOf]
  by_cases hm : m = msg.manager_id
  · subst hm
    rw [alookup_aset_self]
    simp only [Option.getD_some]
    by_cases hn : n = msg.actor_name
    · subst hn
      rw [alookup_aset_self]
      constructor
      · intro _
        by_cases hmem : msg.actor_name ∈ actorsOf st msg.manager_id <;>
          simp [actorsOf] at hmem <;> simp [hmem]
      · intro _
        exact ⟨msg.actor_endpoint, rfl⟩
    · rw [alookup_aset_ne _ _ hn]
      have hiff := hA n msg.manager_id
      simp only [actorsOf] at hiff
      constructor
      · intro hex
        have hmem2 : n ∈ (alookup msg.manager_id st.manager_actors).getD [] :=
          hiff.mp hex
        by_cases hmem : msg.actor_name ∈ (alookup msg.manager_id st.manager_actors).getD [] <;>
          simp only [actorsOf, if_pos, if_neg, hmem, if_true, if_false] <;>
          simp [hmem, hmem2, List.mem_append]
      · intro hmem2
        apply hiff.mpr
        simp only [actorsOf] at hmem2
        by_cases hmem : msg.actor_name ∈ (alookup msg.manager_id st.manager_actors).getD []
        · rwa [if_pos hmem] at hmem2
        · rw [if_neg hmem] at hmem2
          rcases List.mem_append.mp hmem2 with h | h
          · exact h
          · simp only [List.mem_singleton] at h
            exact absurd h hn
  · rw [alookup_aset_ne _ _ hm]
    by_cases hn : n = msg.actor_name
    · subst hn
      rw [alookup_aset_self]
      constructor
      · rintro ⟨e, he⟩
        simp only [Option.some.injEq, ActorEntry.mk.injEq] at he
        exact absurd he.2 (fun h2 => hm h2.symm)
      · intro hmem
        exfalso
        obtain ⟨e, he⟩ := (hA msg.actor_name m).mpr (by simpa [actorsOf] using hmem)
        rw [hreg] at he
        cases he
    · rw [alookup_aset_ne _ _ hn]
      simpa [actorsOf] using hA n m

theorem agrees_on_unregister {st : RegistryState} (a : String)
    (hA : Agrees st) : Agrees (on_unregister a st) := by
  rcases hreg : alookup a st.registry with _ | entry
  case none => simpa [on_unregister, hreg] using hA
  case some =>
  obtain ⟨E, Mo⟩ := entry
  have hmemMo : a ∈ actorsOf st Mo := (hA a Mo).mp ⟨E, hreg⟩
  obtain ⟨s, hs, has⟩ := actorsOf_mem_alookup hmemMo
  have hbranch : on_unregister a st =
      { st with
        registry := aerase a st.registry,
        manager_actors :=
          aset Mo (s.filter (fun x => x ≠ a)) st.manager_actors } := by
    simp [on_unregister, hreg, hs]
  intro n m
  rw [hbranch]
  simp only [actorsOf]
  by_cases hn : n = a
  · subst hn
    rw [alookup_aerase_self]
    constructor
    · rintro ⟨e, he⟩
      cases he
    · intro hmem
      exfalso
      by_cases hm : m = Mo
      · subst hm
        rw [alookup_aset_self] at hmem
        simp only [Option.getD_some, List.mem_filter, decide_eq_true_eq] at hmem
        exact hmem.2 rfl
      · rw [alookup_aset_ne _ _ hm] at hmem
        have : m = Mo := agrees_unique hA (by simpa [actorsOf] using hmem) hmemMo
        exact hm this
  · rw [alookup_aerase_ne _ hn]
    by_cases hm : m = Mo
    · subst hm
      rw [alookup_aset_self]
      simp only [Option.getD_some, List.mem_filter, decide_eq_true_eq]
      have hiff := hA n m
      rw [show actorsOf st m = s by simp [actorsOf, hs]] at hiff
      constructor
      · intro hex
        exact ⟨hiff.mp hex, hn⟩
      · intro hmem
        exact hiff.mpr hmem.1
    · rw [alookup_aset_ne _ _ hm]
      simpa [actorsOf] using hA n m

theorem agrees_on_heartbeat {st : RegistryState} (msg : Heartbeat) (now : ℚ)
    (hA : Agrees st) : Agrees (on_heartbeat msg now st).1 := by
  intro n m
  simpa [on_heartbeat, actorsOf] using hA n m

theorem agrees_unregister_manager {st : RegistryState} (m0 : String)
    (hA : Agrees st) : Agrees (unregister_manager m0 st) := by
  intro n m
  rw [show (unregister_manager m0 st).registry =
        (actorsOf st m0).foldl (fun r k => aerase k r) st.registry from rfl]
  rw [show ∀ x, alookup n ((actorsOf st m0).foldl (fun r k => aerase k r) x) =
        if n ∈ actorsOf st m0 then none else alookup n x from
      fun x => alookup_foldl_aerase (actorsOf st m0) x n]
  by_cases hm : m = m0
  · subst hm
    have : actorsOf (unregister_manager m st) m = [] := by
      simp [actorsOf, manager_actors_unregister_manager, alookup_aerase_self]
    rw [this]
    constructor
    · rintro ⟨e, he⟩
      by_cases hmem : n ∈ actorsOf st m
      · rw [if_pos hmem] at he; cases he
      · rw [if_neg hmem] at he
        exact absurd ((hA n m).mp ⟨e, he⟩) hmem
    · intro hmem
      simp at hmem
  · rw [actorsOf_unregister_manager_ne st hm]
    by_cases hmem : n ∈ actorsOf st m0
    · rw [if_pos hmem]
      constructor
      · rintro ⟨e, he⟩; cases he
      · intro hmem2
        exact absurd (agrees_unique hA hmem2 hmem) hm
    · rw [if_neg hmem]
      exact hA n m

theorem agrees_sweepFold (l : List String) :
    ∀ (st : RegistryState), Agrees st → Agrees (sweepFold l st) := by
  induction l with
  | nil => intro st hA; simpa [sweepFold] using hA
  | cons m l ih =>
      intro st hA
      simp only [sweepFold, List.foldl_cons]
      exact ih (unregister_manager m st) (agrees_unregister_manager m hA)

theorem agrees_check_heartbeats {st : RegistryState} (now : ℚ)
    (hA : Agrees st) : Agrees (check_heartbeats now st) :=
  agrees_sweepFold (staleManagers now st) st hA

theorem wf_on_register {st : RegistryState} (msg : RegisterActor) (now : ℚ)
    (hW : WFheartbeats st) : WFheartbeats (on_register msg now st).1 := by
  rcases hreg : alookup msg.actor_name st.registry with _ | entry
  case some => simpa [on_register, hreg] using hW
  case none =>
      unfold WFheartbeats at hW ⊢
      simp only [on_register, hreg]
      simpa using nodup_keys_aset msg.manager_id now hW

theorem wf_on_unregister {st : RegistryState} (a : String)
    (hW : WFheartbeats st) : WFheartbeats (on_unregister a st) := by
  unfold on_unregister
  rcases alookup a st.registry with _ | entry
  · exact hW
  · rcases alookup entry.manager_id st.manager_actors with _ | s <;> exact hW

theorem wf_on_heartbeat {st : RegistryState} (msg : Heartbeat) (now : ℚ)
    (hW : WFheartbeats st) : WFheartbeats (on_heartbeat msg now st).1 :=
  nodup_keys_aset msg.manager_id now hW

theorem wf_unregister_manager {st : RegistryState} (m : String)
    (hW : WFheartbeats st) : WFheartbeats (unregister_manager m st) :=
  nodup_keys_aerase m hW

theorem wf_sweepFold (l : List String) :
    ∀ (st : RegistryState), WFheartbeats st → WFheartbeats (sweepFold l st) := by
  induction l with
  | nil => intro st hW; simpa [sweepFold] using hW
  | cons m l ih =>
      intro st hW
      simp only [sweepFold, List.foldl_cons]
      exact ih (unregister_manager m st) (wf_unregister_manager m hW)

theorem inv_applyOp {st : RegistryState} (op : RegistryOp)
    (h : Agrees st ∧ WFheartbeats st) :
    Agrees (applyOp st op) ∧ WFheartbeats (applyOp st op) := by
  cases op with
  | register m n e now =>
      exact ⟨agrees_on_register _ now h.1, wf_on_register _ now h.2⟩
  | unregister n =>
      exact ⟨agrees_on_unregister n h.1, wf_on_unregister n h.2⟩
  | heartbeat m now =>
      exact ⟨agrees_on_heartbeat _ now h.1, wf_on_heartbeat _ now h.2⟩
  | sweep now =>
      exact ⟨agrees_check_heartbeats now h.1,
        wf_sweepFold (staleManagers now st) st h.2⟩

theorem inv_runOps (ops : List RegistryOp) :
    Agrees (runOps ops) ∧ WFheartbeats (runOps ops) := by
  suffices h : ∀ (st : RegistryState), Agrees st ∧ WFheartbeats st →
      Agrees (ops.foldl applyOp st) ∧ WFheartbeats (ops.foldl applyOp st) by
    refine h initialState ⟨?_, ?_⟩
    · intro n m
      simp [initialState, alookup, actorsOf]
    · simp [initialState, WFheartbeats]
  induction ops with
  | nil => intro st h; simpa using h
  | cons op ops ih =>
      intro st h
      simp only [List.foldl_cons]
      exact ih (applyOp st op) (inv_applyOp op h)

/-! ## Claims -/

/-- C2: for every `LookupActor(actor_name)` request, an absent name is
answered `LookupResult(actor_name, endpoint=null, online=false)`; a present
name is answered with the entry's endpoint, and `online` is true iff the
owning manager has a recorded heartbeat strictly within the 6-second timeout
window at the moment of the lookup. -/
theorem C2_lookup_reply (st : RegistryState) (n : String) (now : ℚ) :
    (alookup n st.registry = none → on_lookup n now st = ⟨n, none, false⟩) ∧
    (∀ e, alookup n st.registry = some e →
      on_lookup n now st = ⟨n, some e.endpoint, is_manager_online st now e.manager_id⟩ ∧
      (is_manager_online st now e.manager_id = true ↔
        ∃ t, alookup e.manager_id st.heartbeats = some t ∧
          now - t < HEARTBEAT_TIMEOUT_S)) := by
  constructor
  · intro h
    simp [on_lookup, h]
  · intro e he
    refine ⟨by simp [on_lookup, he], ?_⟩
    unfold is_manager_online
    cases hhb : alookup e.manager_id st.heartbeats with
    | none => simp
    | some t => simp [decide_eq_true_eq]

/-- C2 witness: a concrete two-entry state, one lookup fresh and online. -/
theorem C2_lookup_reply_witness :
    on_lookup "a" 3 ⟨[("a", ⟨"tcp://h:1", "m1"⟩)], [("m1", 0)], [("m1", ["a"])]⟩ =
      ⟨"a", some "tcp://h:1", true⟩ ∧
    on_lookup "b" 3 ⟨[("a", ⟨"tcp://h:1", "m1"⟩)], [("m1", 0)], [("m1", ["a"])]⟩ =
      ⟨"b", none, false⟩ := by
  constructor
  · have h := (C2_lookup_reply ⟨[("a", ⟨"tcp://h:1", "m1"⟩)], [("m1", 0)], [("m1", ["a"])]⟩
      "a" 3).2 ⟨"tcp://h:1", "m1"⟩ (by decide)
    rw [h.1]
    have honline : is_manager_online
        ⟨[("a", ⟨"tcp://h:1", "m1"⟩)], [("m1", 0)], [("m1", ["a"])]⟩ 3 "m1" = true := by
      norm_num [is_manager_online, alookup, HEARTBEAT_TIMEOUT_S]
    rw [honline]
  · exact (C2_lookup_reply ⟨[("a", ⟨"tcp://h:1", "m1"⟩)], [("m1", 0)], [("m1", ["a"])]⟩
      "b" 3).1 (by decide)

/-- C9: `is_manager_online` is false for a manager with no recorded heartbeat
and otherwise true iff strictly less than 6 seconds elapsed on the registry's
monotonic clock; the heartbeat handler's state change ignores the message's
`timestamp_ms` field; and at exactly 6.0 elapsed seconds a manager is not
online yet also not eligible for the sweep, which requires strictly more
than 6 seconds. -/
theorem C9_online_boundary (st : RegistryState) (m : String) (now : ℚ) :
    (alookup m st.heartbeats = none → is_manager_online st now m = false) ∧
    (∀ t, alookup m st.heartbeats = some t →
      (is_manager_online st now m = true ↔ now - t < HEARTBEAT_TIMEOUT_S)) ∧
    (∀ ts1 ts2 : Int, on_heartbeat ⟨m, ts1⟩ now st = on_heartbeat ⟨m, ts2⟩ now st) ∧
    (∀ t, alookup m st.heartbeats = some t → now - t = HEARTBEAT_TIMEOUT_S →
      is_manager_online st now m = false ∧
      (WFheartbeats st → m ∉ staleManagers now st)) := by
  refine ⟨?_, ?_, ?_, ?_⟩
  · intro h
    simp [is_manager_online, h]
  · intro t h
    simp [is_manager_online, h, decide_eq_true_eq]
  · intro ts1 ts2
    rfl
  · intro t h heq
    constructor
    · simp [is_manager_online, h, heq]
    · intro hW
      exact not_mem_staleManagers hW h (by rw [heq]; exact lt_irrefl _)

/-- C9 witness: at exactly 6 elapsed seconds the manager is offline and the
sweep leaves its heartbeat in place. -/
theorem C9_online_boundary_witness :
    is_manager_online ⟨[], [("m1", 1)], []⟩ 7 "m1" = false ∧
    "m1" ∉ staleManagers 7 ⟨[], [("m1", 1)], []⟩ := by
  have h := (C9_online_boundary ⟨[], [("m1", 1)], []⟩ "m1" 7).2.2.2 1
    (by decide) (by norm_num [HEARTBEAT_TIMEOUT_S])
  exact ⟨h.1, h.2 (by simp [WFheartbeats])⟩

/-- C5: every `UnregisterActor(actor_name)` request to the standalone server
is answered `RegistrationOk(actor_name)` whether or not the name is
registered; a present name is removed from the name map and from its owning
manager's actor set; and the owning manager's heartbeat entry is never
deleted. -/
theorem C5_unregister_idempotent (st : RegistryState) (n : String) :
    (server_unregister n st).2 = ⟨n⟩ ∧
    (server_unregister n st).1.heartbeats = st.heartbeats ∧
    alookup n (server_unregister n st).1.registry = none ∧
    (alookup n st.registry = none → (server_unregister n st).1 = st) ∧
    (∀ e, alookup n st.registry = some e →
      n ∉ actorsOf (server_unregister n st).1 e.manager_id) := by
  refine ⟨rfl, ?_, ?_, ?_, ?_⟩
  · show (on_unregister n st).heartbeats = st.heartbeats
    unfold on_unregister
    rcases alookup n st.registry with _ | entry
    · rfl
    · rcases alookup entry.manager_id st.manager_actors with _ | s <;> rfl
  · show alookup n (on_unregister n st).registry = none
    unfold on_unregister
    rcases hreg : alookup n st.registry with _ | entry
    · exact hreg
    · rcases alookup entry.manager_id st.manager_actors with _ | s <;>
        simpa using alookup_aerase_self n st.registry
  · intro h
    show on_unregister n st = st
    unfold on_unregister
    rw [h]
  · intro e he
    show n ∉ actorsOf (on_unregister n st) e.manager_id
    unfold on_unregister
    rw [he]
    rcases hma : alookup e.manager_id st.manager_actors with _ | s
    · simp [actorsOf, hma]
    · simp only [hma, actorsOf, alookup_aset_self, Option.getD_some]
      simp [List.mem_filter]

/-- C5 witness: unregistering a present name and an absent name. -/
theorem C5_unregister_idempotent_witness :
    (server_unregister "a" ⟨[("a", ⟨"e1", "m1"⟩)], [("m1", 0)], [("m1", ["a"])]⟩).2 =
      ⟨"a"⟩ ∧
    (server_unregister "a" ⟨[("a", ⟨"e1", "m1"⟩)], [("m1", 0)], [("m1", ["a"])]⟩).1.heartbeats =
      [("m1", 0)] ∧
    "a" ∉ actorsOf
      (server_unregister "a" ⟨[("a", ⟨"e1", "m1"⟩)], [("m1", 0)], [("m1", ["a"])]⟩).1 "m1" ∧
    (server_unregister "b" ⟨[("a", ⟨"e1", "m1"⟩)], [("m1", 0)], [("m1", ["a"])]⟩).1 =
      ⟨[("a", ⟨"e1", "m1"⟩)], [("m1", 0)], [("m1", ["a"])]⟩ := by
  have h1 := C5_unregister_idempotent ⟨[("a", ⟨"e1", "m1"⟩)], [("m1", 0)], [("m1", ["a"])]⟩ "a"
  have h2 := C5_unregister_idempotent ⟨[("a", ⟨"e1", "m1"⟩)], [("m1", 0)], [("m1", ["a"])]⟩ "b"
  exact ⟨h1.1, h1.2.1, h1.2.2.2.2 ⟨"e1", "m1"⟩ (by decide), h2.2.2.2.1 (by decide)⟩

/-- C6: `RegistryClient.lookup` returns an endpoint exactly when the
`LookupResult` reply carries a non-null endpoint with `online=true`; it
raises `ActorNotFoundError` exactly when the endpoint is null; it raises
`ActorOfflineError` exactly when the endpoint is non-null but `online` is
false; and when no reply arrives within the socket's 5000 ms receive
deadline it raises `TimeoutError`. -/
theorem C6_client_lookup (r : ReplyDict)
    (h : r.message_type = some "LookupResult") :
    (∀ ep, client_lookup (some r) = .found ep ↔
      r.endpoint = some ep ∧ r.online.getD false = true) ∧
    (client_lookup (some r) = .notFound ↔ r.endpoint = none) ∧
    (client_lookup (some r) = .offline ↔
      (∃ ep, r.endpoint = some ep) ∧ r.online.getD false = false) ∧
    client_lookup none = .timeout ∧
    RCVTIMEO_MS = 5000 := by
  refine ⟨?_, ?_, ?_, rfl, rfl⟩
  · intro ep
    unfold client_lookup
    rcases hep : r.endpoint with _ | ep'
    · simp [h, hep]
    · rcases hon : r.online.getD false <;> simp [h, hep, hon]
  · unfold client_lookup
    rcases hep : r.endpoint with _ | ep'
    · simp [h, hep]
    · rcases hon : r.online.getD false <;> simp [h, hep, hon]
  · unfold client_lookup
    rcases hep : r.endpoint with _ | ep'
    · simp [h, hep]
    · rcases hon : r.online.getD false <;> simp [h, hep, hon]

/-- C6 witness: the three reply shapes and the timeout case at concrete
replies. -/
theorem C6_client_lookup_witness :
    client_lookup (some ⟨some "LookupResult", some "tcp://h:1", some true⟩) =
      .found "tcp://h:1" ∧
    client_lookup (some ⟨some "LookupResult", none, some false⟩) = .notFound ∧
    client_lookup (some ⟨some "LookupResult", some "tcp://h:1", some false⟩) =
      .offline ∧
    client_lookup none = .timeout := by
  have h1 := C6_client_lookup ⟨some "LookupResult", some "tcp://h:1", some true⟩ rfl
  have h2 := C6_client_lookup ⟨some "LookupResult", none, some false⟩ rfl
  have h3 := C6_client_lookup ⟨some "LookupResult", some "tcp://h:1", some false⟩ rfl
  refine ⟨(h1.1 "tcp://h:1").mpr ⟨rfl, rfl⟩, h2.2.1.mpr rfl,
    h3.2.2.1.mpr ⟨⟨"tcp://h:1", rfl⟩, rfl⟩, h1.2.2.2.1⟩

/-- C7 counterexample: `StartManager`, a defined process-control request
type, serializes with no `message_type` key at all — its `to_dict` carries
only `manager_id` and `action`. -/
theorem C7_counterexample :
    alookup "message_type" (StartManager.to_dict ⟨"manager-1"⟩) = none ∧
    StartManager.to_dict ⟨"manager-1"⟩ =
      [("manager_id", .s "manager-1"), ("action", .s "start")] := by
  exact ⟨rfl, rfl⟩

/-- C7 (amended): every registry wire-protocol request and reply serializes
with a `message_type` discriminator equal to the type's name together with
all of its required fields; the process-control types (`StartManager`,
`StopManager`, `RestartManager`, `ManagerStatus`) serialize WITHOUT a
`message_type` discriminator. -/
theorem C7_discriminators (mid an ep reason : String) (epo : Option String)
    (onl : Bool) (ts : Int) (run2 : Bool) (pid : Option Int)
    (err : Option String) :
    alookup "message_type" (RegisterActor.to_dict ⟨mid, an, ep⟩) =
      some (.s "RegisterActor") ∧
    alookup "manager_id" (RegisterActor.to_dict ⟨mid, an, ep⟩) = some (.s mid) ∧
    alookup "actor_name" (RegisterActor.to_dict ⟨mid, an, ep⟩) = some (.s an) ∧
    alookup "actor_endpoint" (RegisterActor.to_dict ⟨mid, an, ep⟩) = some (.s ep) ∧
    alookup "message_type" (UnregisterActor.to_dict ⟨an⟩) =
      some (.s "UnregisterActor") ∧
    alookup "actor_name" (UnregisterActor.to_dict ⟨an⟩) = some (.s an) ∧
    alookup "message_type" (LookupActor.to_dict ⟨an⟩) = some (.s "LookupActor") ∧
    alookup "actor_name" (LookupActor.to_dict ⟨an⟩) = some (.s an) ∧
    alookup "message_type" (RegistrationOk.to_dict ⟨an⟩) =
      some (.s "RegistrationOk") ∧
    alookup "actor_name" (RegistrationOk.to_dict ⟨an⟩) = some (.s an) ∧
    alookup "message_type" (RegistrationFailed.to_dict ⟨an, reason⟩) =
      some (.s "RegistrationFailed") ∧
    alookup "actor_name" (RegistrationFailed.to_dict ⟨an, reason⟩) = some (.s an) ∧
    alookup "reason" (RegistrationFailed.to_dict ⟨an, reason⟩) = some (.s reason) ∧
    alookup "message_type" (LookupResult.to_dict ⟨an, epo, onl⟩) =
      some (.s "LookupResult") ∧
    alookup "actor_name" (LookupResult.to_dict ⟨an, epo, onl⟩) = some (.s an) ∧
    alookup "endpoint" (LookupResult.to_dict ⟨an, epo, onl⟩) = some (jopt epo) ∧
    alookup "online" (LookupResult.to_dict ⟨an, epo, onl⟩) = some (.b onl) ∧
    alookup "message_type" (Heartbeat.to_dict ⟨mid, ts⟩) = some (.s "Heartbeat") ∧
    alookup "manager_id" (Heartbeat.to_dict ⟨mid, ts⟩) = some (.s mid) ∧
    alookup "timestamp_ms" (Heartbeat.to_dict ⟨mid, ts⟩) = some (.i ts) ∧
    alookup "message_type" (HeartbeatAck.to_dict ⟨⟩) = some (.s "HeartbeatAck") ∧
    alookup "message_type" (StartManager.to_dict ⟨mid⟩) = none ∧
    alookup "message_type" (StopManager.to_dict ⟨mid⟩) = none ∧
    alookup "message_type" (RestartManager.to_dict ⟨mid⟩) = none ∧
    alookup "message_type" (ManagerStatus.to_dict ⟨mid, run2, pid, err⟩) = none :=
  ⟨rfl, rfl, rfl, rfl, rfl, rfl, rfl, rfl, rfl, rfl, rfl, rfl, rfl,
   rfl, rfl, rfl, rfl, rfl, rfl, rfl, rfl, rfl, rfl, rfl, rfl⟩

/-- C8: the standalone server answers every request whose `message_type` is
not one of the four handled kinds with an error record naming the unknown
type, leaving the state unchanged, so the REQ/REP pairing is preserved. -/
theorem C8_unknown_type (req : WireRequest) (now : ℚ) (st : RegistryState)
    (h : req.message_type ∉
      (["RegisterActor", "UnregisterActor", "LookupActor", "Heartbeat"] :
        List String)) :
    server_handle req now st = (st, error_reply req.message_type) ∧
    alookup "error" (error_reply req.message_type) =
      some (.s ("Unknown message type: " ++ req.message_type)) := by
  simp only [List.mem_cons, List.mem_singleton, not_or] at h
  obtain ⟨h1, h2, h3, h4, _⟩ := h
  refine ⟨?_, by simp [error_reply, alookup]⟩
  simp [server_handle, h1, h2, h3, h4]

/-- C8 witness: a concrete bogus request is answered with the error record. -/
theorem C8_unknown_type_witness :
    server_handle ⟨"Bogus", "m1", "a", "e", 0⟩ 0 initialState =
      (initialState, error_reply "Bogus") ∧
    alookup "error" (error_reply "Bogus") =
      some (.s "Unknown message type: Bogus") := by
  have h := C8_unknown_type ⟨"Bogus", "m1", "a", "e", 0⟩ 0 initialState (by decide)
  exact ⟨h.1, by simpa using h.2⟩

/-- C4: a successful registration inserts the entry into the name map and
the manager's actor set, and records the registration itself as a heartbeat
at the current time; a lookup performed immediately afterwards therefore
reports the actor online even if the manager never sent a `Heartbeat`. -/
theorem C4_register_implicit_heartbeat (st : RegistryState)
    (msg : RegisterActor) (now : ℚ)
    (habs : alookup msg.actor_name st.registry = none) :
    (on_register msg now st).2 = .ok msg.actor_name ∧
    alookup msg.actor_name (on_register msg now st).1.registry =
      some ⟨msg.actor_endpoint, msg.manager_id⟩ ∧
    msg.actor_name ∈ actorsOf (on_register msg now st).1 msg.manager_id ∧
    alookup msg.manager_id (on_register msg now st).1.heartbeats = some now ∧
    on_lookup msg.actor_name now (on_register msg now st).1 =
      ⟨msg.actor_name, some msg.actor_endpoint, true⟩ := by
  have hbranch : on_register msg now st =
      ({ registry := aset msg.actor_name ⟨msg.actor_endpoint, msg.manager_id⟩ st.registry,
         heartbeats := aset msg.manager_id now st.heartbeats,
         manager_actors :=
           aset msg.manager_id
             (if msg.actor_name ∈ actorsOf st msg.manager_id then
                actorsOf st msg.manager_id
              else
                actorsOf st msg.manager_id ++ [msg.actor_name])
             st.manager_actors },
       .ok msg.actor_name) := by
    simp [on_register, habs]
  rw [hbranch]
  refine ⟨rfl, alookup_aset_self .., ?_, alookup_aset_self .., ?_⟩
  · simp only [actorsOf, alookup_aset_self, Option.getD_some]
    by_cases hmem : msg.actor_name ∈ actorsOf st msg.manager_id <;>
      simp only [actorsOf] at hmem <;> simp [hmem]
  · simp only [on_lookup, is_manager_online, alookup_aset_self]
    norm_num [HEARTBEAT_TIMEOUT_S]

/-- C4 witness: registering into the empty registry from a manager that has
never heartbeated; the immediate lookup is online. -/
theorem C4_register_implicit_heartbeat_witness :
    on_lookup "a" 5 (on_register ⟨"m1", "a", "tcp://h:1"⟩ 5 initialState).1 =
      ⟨"a", some "tcp://h:1", true⟩ ∧
    alookup "m1" (on_register ⟨"m1", "a", "tcp://h:1"⟩ 5 initialState).1.heartbeats =
      some 5 := by
  have h := C4_register_implicit_heartbeat initialState ⟨"m1", "a", "tcp://h:1"⟩ 5 rfl
  exact ⟨h.2.2.2.2, h.2.2.2.1⟩

theorem on_register_present {st : RegistryState} {msg : RegisterActor}
    {e : ActorEntry} (now : ℚ) (h : alookup msg.actor_name st.registry = some e) :
    on_register msg now st = (st, .failed msg.actor_name "Name already registered") := by
  simp [on_register, h]

/-- C3: registering a name that is free succeeds with `RegistrationOk`; an
immediate second registration of the same name (from any manager) is
rejected with `RegistrationFailed("Name already registered")` and leaves the
state — name map, heartbeats, everything — exactly as after the first, so a
lookup still returns the first endpoint. -/
theorem C3_duplicate_register (st : RegistryState)
    (m1 n e1 m2 e2 : String) (t1 t2 now : ℚ)
    (habs : alookup n st.registry = none) :
    (on_register ⟨m1, n, e1⟩ t1 st).2 = .ok n ∧
    (on_register ⟨m2, n, e2⟩ t2 (on_register ⟨m1, n, e1⟩ t1 st).1).2 =
      .failed n "Name already registered" ∧
    (on_register ⟨m2, n, e2⟩ t2 (on_register ⟨m1, n, e1⟩ t1 st).1).1 =
      (on_register ⟨m1, n, e1⟩ t1 st).1 ∧
    (on_lookup n now
      (on_register ⟨m2, n, e2⟩ t2 (on_register ⟨m1, n, e1⟩ t1 st).1).1).endpoint =
      some e1 ∧
    (on_register ⟨m2, n, e2⟩ t2 (on_register ⟨m1, n, e1⟩ t1 st).1).1.heartbeats =
      (on_register ⟨m1, n, e1⟩ t1 st).1.heartbeats := by
  have hfst : alookup n (on_register ⟨m1, n, e1⟩ t1 st).1.registry =
      some ⟨e1, m1⟩ := by
    simp only [on_register, habs, Option.isSome_none, Bool.false_eq_true, if_false]
    exact alookup_aset_self ..
  have hsnd : on_register ⟨m2, n, e2⟩ t2 (on_register ⟨m1, n, e1⟩ t1 st).1 =
      ((on_register ⟨m1, n, e1⟩ t1 st).1, .failed n "Name already registered") :=
    on_register_present t2 hfst
  refine ⟨?_, ?_, ?_, ?_, ?_⟩
  · simp [on_register, habs]
  · rw [hsnd]
  · rw [hsnd]
  · rw [hsnd]
    simp [on_lookup, hfst]
  · rw [hsnd]

/-- C3 witness: two registrations of `"svc"` against the empty registry. -/
theorem C3_duplicate_register_witness :
    (on_register ⟨"mA", "svc", "tcp://h:1"⟩ 0 initialState).2 = .ok "svc" ∧
    (on_register ⟨"mB", "svc", "tcp://h:2"⟩ 1
      (on_register ⟨"mA", "svc", "tcp://h:1"⟩ 0 initialState).1).2 =
      .failed "svc" "Name already registered" ∧
    (on_lookup "svc" 1
      (on_register ⟨"mB", "svc", "tcp://h:2"⟩ 1
        (on_register ⟨"mA", "svc", "tcp://h:1"⟩ 0 initialState).1).1).endpoint =
      some "tcp://h:1" := by
  have h := C3_duplicate_register initialState "mA" "svc" "tcp://h:1" "mB" "tcp://h:2"
    0 1 1 rfl
  exact ⟨h.1, h.2.1, h.2.2.2.1⟩

/-- C1: in any reachable registry state, a sweep pass removes every manager
whose last recorded heartbeat is strictly more than 6 seconds old — all the
actor names it owns disappear from the name map and the manager disappears
from both the heartbeat map and the manager→actors map — while a manager
whose last heartbeat is within 6 seconds keeps its heartbeat, its
manager→actors entry and all of its actors' name-map rows unchanged. -/
theorem C1_sweep_pass (ops : List RegistryOp) (m : String) (t now : ℚ)
    (hm : alookup m (runOps ops).heartbeats = some t) :
    (now - t > HEARTBEAT_TIMEOUT_S →
      (∀ n ∈ actorsOf (runOps ops) m,
        alookup n (check_heartbeats now (runOps ops)).registry = none) ∧
      alookup m (check_heartbeats now (runOps ops)).heartbeats = none ∧
      alookup m (check_heartbeats now (runOps ops)).manager_actors = none) ∧
    (¬ now - t > HEARTBEAT_TIMEOUT_S →
      alookup m (check_heartbeats now (runOps ops)).heartbeats = some t ∧
      alookup m (check_heartbeats now (runOps ops)).manager_actors =
        alookup m (runOps ops).manager_actors ∧
      ∀ n ∈ actorsOf (runOps ops) m,
        alookup n (check_heartbeats now (runOps ops)).registry =
          alookup n (runOps ops).registry) := by
  obtain ⟨hA, hW⟩ := inv_runOps ops
  have hnd : (staleManagers now (runOps ops)).Nodup := nodup_staleManagers hW
  rw [check_heartbeats_eq_sweepFold]
  constructor
  · intro hgt
    have hstale : m ∈ staleManagers now (runOps ops) :=
      mem_staleManagers_of_alookup hm hgt
    refine ⟨?_, ?_, ?_⟩
    · intro n hn
      exact reg_deleted_sweepFold (staleManagers now (runOps ops)) (runOps ops)
        m hstale hnd n hn
    · rw [hb_sweepFold, if_pos hstale]
    · rw [ma_sweepFold, if_pos hstale]
  · intro hle
    have hns : m ∉ staleManagers now (runOps ops) :=
      not_mem_staleManagers hW hm hle
    refine ⟨?_, ?_, ?_⟩
    · rw [hb_sweepFold, if_neg hns]
      exact hm
    · rw [ma_sweepFold, if_neg hns]
    · intro n hn
      refine reg_fresh_sweepFold (staleManagers now (runOps ops)) (runOps ops)
        n hnd ?_
      intro m' hm' hmem
      exact hns ((agrees_unique hA hmem hn) ▸ hm')

/-- C1 witness: after one registration at time 0, a sweep at time 7 drops
the actor and the manager; a sweep at time 3 leaves the heartbeat intact. -/
theorem C1_sweep_pass_witness :
    alookup "a"
      (check_heartbeats 7 (runOps [.register "m1" "a" "tcp://h:1" 0])).registry =
      none ∧
    alookup "m1"
      (check_heartbeats 7 (runOps [.register "m1" "a" "tcp://h:1" 0])).heartbeats =
      none ∧
    alookup "m1"
      (check_heartbeats 3 (runOps [.register "m1" "a" "tcp://h:1" 0])).heartbeats =
      some 0 := by
  have h7 := C1_sweep_pass [.register "m1" "a" "tcp://h:1" 0] "m1" 0 7 (by decide)
  have h3 := C1_sweep_pass [.register "m1" "a" "tcp://h:1" 0] "m1" 0 3 (by decide)
  have hgt : (7 : ℚ) - 0 > HEARTBEAT_TIMEOUT_S := by norm_num [HEARTBEAT_TIMEOUT_S]
  have hle : ¬ (3 : ℚ) - 0 > HEARTBEAT_TIMEOUT_S := by norm_num [HEARTBEAT_TIMEOUT_S]
  exact ⟨(h7.1 hgt).1 "a" (by decide), (h7.1 hgt).2.1, (h3.2 hle).1⟩

/-- C10: in every registry state reachable from the empty registry by
register, unregister, heartbeat and sweep operations, the name map and the
manager→actors reverse index agree — a name maps to an entry owned by
manager `m` iff the name is in `m`'s set — and no name is in more than one
manager's set. -/
theorem C10_maps_agree (ops : List RegistryOp) :
    (∀ n m, (∃ e, alookup n (runOps ops).registry = some ⟨e, m⟩) ↔
      n ∈ actorsOf (runOps ops) m) ∧
    (∀ n m1 m2, n ∈ actorsOf (runOps ops) m1 → n ∈ actorsOf (runOps ops) m2 →
      m1 = m2) := by
  obtain ⟨hA, _⟩ := inv_runOps ops
  exact ⟨hA, fun n m1 m2 h1 h2 => agrees_unique hA h1 h2⟩

/-- C10 witness: the agreement instantiated on a concrete reachable state. -/
theorem C10_maps_agree_witness :
    "a" ∈ actorsOf (runOps [.register "m1" "a" "tcp://h:1" 0]) "m1" ∧
    (∃ e, alookup "a" (runOps [.register "m1" "a" "tcp://h:1" 0]).registry =
      some ⟨e, "m1"⟩) := by
  have h := C10_maps_agree [.register "m1" "a" "tcp://h:1" 0]
  have hmem : "a" ∈ actorsOf (runOps [.register "m1" "a" "tcp://h:1" 0]) "m1" := by
    decide
  exact ⟨hmem, (h.1 "a" "m1").mpr hmem⟩
